import Mathlib

/-!
Verification of the stock-analysis report pipeline (`streamlit_app.py`).

The pipeline is embedded shallowly:

* Raw JSON field values that may be missing (Python `None`) or NaN are
  modelled by `RawVal`; Python `str()` of such a value is `pyStr`.
* `fix_sku_and_name`, the SKU/name normalizer, is translated from the
  source row-mutating function, including its regex patterns
  (`^(\d+)\s+(.*)`, `^SKU\s*(\d+)\s+(.*)`, `^(\d+)-\s*(.*)`,
  `^Ref:\s*(\d+)\s+(.*)`), hand-compiled to character-list matchers.
  These four patterns use only `\d+`, `\s+`/`\s*`, literal text and a
  trailing `(.*)`, so greedy maximal-munch matching is exact.
* `process_data`, the monthly/weighted demand computations, the active
  months computation, the report assembly and the search filter are
  translated as pure functions over lists.  pandas `groupby` is modelled
  as: distinct keys (sorted, as pandas sorts group keys), each key
  aggregated over the sublist of rows with that key; `merge(..., how =
  "left")` against a one-row-per-key right table is modelled as a
  function lookup.
* Calendar months are absolute month numbers (year*12+month, `ℤ`); the
  report anchor `now` is the parameter `M`, the month containing "now".
  `(now - relativedelta(months := i)).replace(day := 1)` has month `M - i`,
  and first-of-month dates compare like their month numbers.
* Quantities coming from JSON numbers are `ℚ`; catalog stock is `ℤ`
  (the code casts it with `astype(int)`).
* numpy `.round(2)` is round-half-to-even at two decimals (`round2`),
  idealized over ℚ.
-/

/-- Raw value of a JSON-derived field: absent/null (Python `None`),
float NaN, or a string. -/
inductive RawVal where
  | pynull : RawVal
  | pynan : RawVal
  | pystr : String → RawVal
deriving DecidableEq, Repr

/-- Python `str()` applied to a `RawVal` (`str(None) = "None"`,
`str(nan) = "nan"`). -/
def pyStr : RawVal → String
  | .pynull => "None"
  | .pynan => "nan"
  | .pystr s => s

/-- Python whitespace class `\s` (ASCII range). -/
def isPySpace (c : Char) : Bool :=
  c = ' ' || c = '\t' || c = '\n' || c = '\r' || c = '\x0b' || c = '\x0c'

/-- Python `str.strip()`: drop leading and trailing whitespace. -/
def pyStrip (s : String) : String :=
  ⟨((s.toList.dropWhile isPySpace).reverse.dropWhile isPySpace).reverse⟩

/-- Python `str.lower()` (ASCII letters). -/
def pyLower (s : String) : String := ⟨s.toList.map Char.toLower⟩

/-- One shipped-items line as fetched by `get_shipped_items` and mutated by
`fix_sku_and_name`: `SKU`, `Product Name`, `Units_Ordered` (`total`),
`Units_Shipped` (`sent`), `Units_Pending` (`pending`). -/
structure Row where
  SKU : RawVal
  ProductName : RawVal
  unitsOrdered : ℚ
  unitsShipped : ℚ
  unitsPending : ℚ
deriving DecidableEq, Repr

/-- A regex matcher for one of the four SKU patterns: given the name's
characters, returns the two capture groups on success. -/
abbrev SkuPat := List Char → Option (List Char × List Char)

/-- `(.*)` at the end of a pattern: greedy, stops at a newline. -/
def restGroup (cs : List Char) : List Char := cs.takeWhile (· ≠ '\n')

/-- `^(\d+)\s+(.*)` -/
def matchP1 : SkuPat := fun cs =>
  let ds := cs.takeWhile Char.isDigit
  let r1 := cs.dropWhile Char.isDigit
  if ds.isEmpty then none
  else if (r1.takeWhile isPySpace).isEmpty then none
  else some (ds, restGroup (r1.dropWhile isPySpace))

/-- `^SKU\s*(\d+)\s+(.*)` -/
def matchP2 : SkuPat := fun cs =>
  match cs with
  | 'S' :: 'K' :: 'U' :: r0 =>
    let r1 := r0.dropWhile isPySpace
    let ds := r1.takeWhile Char.isDigit
    let r2 := r1.dropWhile Char.isDigit
    if ds.isEmpty then none
    else if (r2.takeWhile isPySpace).isEmpty then none
    else some (ds, restGroup (r2.dropWhile isPySpace))
  | _ => none

/-- `^(\d+)-\s*(.*)` -/
def matchP3 : SkuPat := fun cs =>
  let ds := cs.takeWhile Char.isDigit
  let r1 := cs.dropWhile Char.isDigit
  if ds.isEmpty then none
  else
    match r1 with
    | '-' :: r2 => some (ds, restGroup (r2.dropWhile isPySpace))
    | _ => none

/-- `^Ref:\s*(\d+)\s+(.*)` -/
def matchP4 : SkuPat := fun cs =>
  match cs with
  | 'R' :: 'e' :: 'f' :: ':' :: r0 =>
    let r1 := r0.dropWhile isPySpace
    let ds := r1.takeWhile Char.isDigit
    let r2 := r1.dropWhile Char.isDigit
    if ds.isEmpty then none
    else if (r2.takeWhile isPySpace).isEmpty then none
    else some (ds, restGroup (r2.dropWhile isPySpace))
  | _ => none

/-- The four patterns in source order. -/
def skuPatterns : List SkuPat := [matchP1, matchP2, matchP3, matchP4]

/-- The source's placeholder test on the trimmed SKU:
`sku == "0" or sku.lower() in ["none", "nan"]`. -/
def skuPlaceholder (sku : String) : Bool :=
  sku == "0" || pyLower sku == "none" || pyLower sku == "nan"

/-- The `for pattern in patterns: ... break` loop of `fix_sku_and_name`:
try each pattern against the trimmed name, rewrite `SKU`/`Product Name`
from the first match, leave the row untouched when none matches. -/
def fixLoop (row : Row) (cs : List Char) : List SkuPat → Row
  | [] => row
  | p :: ps =>
    match p cs with
    | some (g1, g2) =>
      { row with SKU := .pystr ⟨g1⟩, ProductName := .pystr (pyStrip ⟨g2⟩) }
    | none => fixLoop row cs ps

/-- `fix_sku_and_name` from the source: trim the stringified SKU and name;
when the trimmed SKU is `"0"` or case-insensitively `"none"`/`"nan"`,
attempt the four patterns against the trimmed name; otherwise write the
trimmed SKU and name back into the row. -/
def fix_sku_and_name (row : Row) : Row :=
  let sku := pyStrip (pyStr row.SKU)
  let name := pyStrip (pyStr row.ProductName)
  if skuPlaceholder sku then fixLoop row name.toList skuPatterns
  else { row with SKU := .pystr sku, ProductName := .pystr name }

/-- Ordered first-match pattern extraction as the spec words it: try the
four forms in sequence, take the first match, trim the captured
remainder. -/
def specExtractFirst (name : String) : Option (String × String) :=
  (skuPatterns.findSome? (fun p => p name.toList)).map
    (fun g => (⟨g.1⟩, pyStrip ⟨g.2⟩))

/-- The spec's normalizer result for a placeholder-SKU row, phrased from
`specExtractFirst`. -/
def specExtractRow (row : Row) : Row :=
  match specExtractFirst (pyStrip (pyStr row.ProductName)) with
  | some g => { row with SKU := .pystr g.1, ProductName := .pystr g.2 }
  | none => row

/-- numpy round-half-to-even of a rational to the nearest integer. -/
def bankerRound (x : ℚ) : ℤ :=
  let n := x.num
  let d := (x.den : ℤ)
  let f := n.fdiv d
  let rem := n - f * d
  if 2 * rem < d then f
  else if d < 2 * rem then f + 1
  else if f % 2 = 0 then f else f + 1

/-- pandas `.round(2)`, idealized over ℚ. -/
def round2 (q : ℚ) : ℚ := (bankerRound (100 * q) : ℚ) / 100

/-- One entry of an order document's embedded `products` list. -/
structure ProdItem where
  sku : RawVal
  units : ℚ
deriving DecidableEq, Repr

/-- One entry of a `salesorder/{id}/shippeditems` response. -/
structure ShippedItem where
  sku : RawVal
  name : RawVal
  total : ℚ
  sent : ℚ
  pending : ℚ
deriving DecidableEq, Repr

/-- A fetched sales-order document.  `month` is the Madrid-local calendar
month of its `date`; `products = none` models an unparseable `products`
field (`ast.literal_eval` failure, order skipped); `shipped = none`
models a failed shipped-items fetch (empty contribution). -/
structure Order where
  docNumber : String
  month : ℤ
  products : Option (List ProdItem)
  shipped : Option (List ShippedItem)
deriving DecidableEq, Repr

/-- `str(item.get("sku", "")).strip()` (`pynull` models a missing key,
which `get` defaults to `""`). -/
def prodSku (v : RawVal) : String :=
  pyStrip (match v with | .pynull => "" | .pynan => "nan" | .pystr s => s)

/-- One row of `df_monthly` / `sku_date_df`: SKU, month, units. -/
structure MonthlyRec where
  sku : String
  month : ℤ
  units : ℚ
deriving DecidableEq, Repr

/-- The per-line-item rows built from the full sales-order fetch by
`get_weighted_units_by_sku` (SKU, date's month, units). -/
def monthlyRecords (orders : List Order) : List MonthlyRec :=
  orders.flatMap fun o =>
    match o.products with
    | none => []
    | some ps => ps.map fun it => ⟨prodSku it.sku, o.month, it.units⟩

/-- `month_bins`: the months of `now - relativedelta(months=i)` for
`i in range(6)`, reversed, so oldest first. -/
def monthBins (M : ℤ) : List ℤ := [M - 5, M - 4, M - 3, M - 2, M - 1, M]

/-- The weight list `[0.125, 0.125, 0.125, 0.125, 0.25, 0.25]`. -/
def weights : List ℚ := [1/8, 1/8, 1/8, 1/8, 1/4, 1/4]

/-- `weight_map = dict(zip(month_bins, [0.125, ..., 0.25]))`. -/
def weightMap (M : ℤ) : List (ℤ × ℚ) := (monthBins M).zip weights

/-- The "Media Exponencial (Mes)" sum of `get_weighted_units_by_sku` for
one SKU: in-bin line items weighted by their month's weight; a SKU with
no in-bin records sums to 0, which is also what the left-merge `fillna(0)`
yields for it. -/
def weightedRaw (orders : List Order) (sku : String) (M : ℤ) : ℚ :=
  let recs := (monthlyRecords orders).filter fun r => decide (r.month ∈ monthBins M)
  ((recs.filter fun r => r.sku == sku).map
    fun r => r.units * (((weightMap M).lookup r.month).getD 0)).sum

/-- Units of one (SKU, month) bucket of the monthly table. -/
def bucketUnits (orders : List Order) (sku : String) (m : ℤ) : ℚ :=
  (((monthlyRecords orders).filter fun r => r.sku == sku && r.month == m).map
    (·.units)).sum

/-- Sum of a SKU's bucket units over the 6 trailing month bins. -/
def sumBuckets (orders : List Order) (sku : String) (M : ℤ) : ℚ :=
  ((monthBins M).map (bucketUnits orders sku)).sum

/-- A SKU's total in-window units in the monthly (full order stream) table. -/
def inWindowUnits (orders : List Order) (sku : String) (M : ℤ) : ℚ :=
  (((monthlyRecords orders).filter fun r =>
    decide (r.month ∈ monthBins M) && r.sku == sku).map (·.units)).sum

/-- `extract_sku_dates`: one (stripped SKU, month) pair per product line of
each parseable full-fetch order. -/
def extractSkuDates (orders : List Order) : List (String × ℤ) :=
  orders.flatMap fun o =>
    match o.products with
    | none => []
    | some ps => ps.map fun it => (prodSku it.sku, o.month)

/-- The "Active Months" value merged into the report for one SKU: distinct
months `>= (now - 6 months).replace(day=1)` among the SKU's extracted
date rows, `nunique` then `clip(upper=6)`; a SKU absent from the table is
filled with 0. -/
def activeMonthsFun (orders : List Order) (sku : String) (M : ℤ) : ℕ :=
  let inWindow := (extractSkuDates orders).filter fun p => decide (M - 6 ≤ p.2)
  min ((inWindow.filter fun p => p.1 == sku).map (·.2)).dedup.length 6

/-- `get_shipped_items` row shape consumed by `process_data`. -/
def toShippedRow (it : ShippedItem) : Row := ⟨it.sku, it.name, it.total, it.sent, it.pending⟩

/-- The `filter_by_so` selection: keep orders whose `docNumber` starts with
`"SO"`, or all orders. -/
def salesFiltered (orders : List Order) (filterSO : Bool) : List Order :=
  if filterSO then orders.filter fun o => o.docNumber.startsWith "SO" else orders

/-- All shipped-item rows of the selected orders. -/
def shippedRows (orders : List Order) (filterSO : Bool) : List Row :=
  (salesFiltered orders filterSO).flatMap fun o => (o.shipped.getD []).map toShippedRow

/-- Membership in the drop list `["", "0", None, np.nan]`. -/
def inDropSet (v : RawVal) : Bool :=
  v == .pystr "" || v == .pystr "0" || v == .pynull || v == .pynan

/-- `df["Product Name"].str.lower().eq("shipping")` (null names compare
false). -/
def nameIsShipping (v : RawVal) : Bool :=
  match v with
  | .pystr s => pyLower s == "shipping"
  | _ => false

/-- The normalized-and-filtered line items that enter aggregation. -/
def keptRows (orders : List Order) (filterSO : Bool) : List Row :=
  (((shippedRows orders filterSO).map fix_sku_and_name).filter
    fun r => !inDropSet r.SKU).filter fun r => !nameIsShipping r.ProductName

/-- Total order `≤` on character lists mirroring Python string comparison
(lexicographic by code point). -/
def clLe : List Char → List Char → Bool
  | [], _ => true
  | _ :: _, [] => false
  | a :: as, b :: bs => if a = b then clLe as bs else decide (a < b)

/-- Python string `≤`. -/
def strLe (a b : String) : Bool := clLe a.toList b.toList

/-- Insertion step of a stable insertion sort. -/
def insertLe {α : Type} (le : α → α → Bool) (x : α) : List α → List α
  | [] => [x]
  | y :: ys => if le x y then x :: y :: ys else y :: insertLe le x ys

/-- Stable insertion sort by a boolean `≤`. -/
def sortLe {α : Type} (le : α → α → Bool) (l : List α) : List α := l.foldr (insertLe le) []

/-- Highest multiplicity among the values of a string series. -/
def maxCount (strs : List String) : ℕ :=
  (strs.dedup.map fun v => strs.count v).foldr max 0

/-- pandas `Series.mode()` for a string series: the values of highest
multiplicity, in sorted order. -/
def pdModeList (strs : List String) : List String :=
  sortLe strLe (strs.dedup.filter fun v => strs.count v == maxCount strs)

/-- `x.mode().iloc[0] if not x.mode().empty else x.iloc[0]`: mode drops
nulls; with no non-null value the first element is taken. -/
def pdModeFirst (names : List RawVal) : RawVal :=
  let strs := names.filterMap fun v =>
    match v with | .pystr s => some s | _ => Option.none
  match (pdModeList strs).head? with
  | some m => .pystr m
  | none => names.headD .pynull

/-- One product-catalog record (`sku` already `astype(str)`). -/
structure CatProd where
  sku : String
  stock : ℤ
deriving DecidableEq, Repr

/-- `stock_map = product_df.set_index("sku")["stock"].to_dict()` lookup:
the last catalog row with a given sku wins. -/
def stockMap (cat : List CatProd) (s : String) : Option ℤ :=
  (cat.reverse.find? fun c => c.sku == s).map (·.stock)

/-- One aggregated row of `process_data`'s output. -/
structure DemandRow where
  sku : String
  name : RawVal
  units6 : ℚ
  shipped6 : ℚ
  stockReal : ℤ
  reservado : ℚ
  disponible : ℚ
deriving DecidableEq, Repr

/-- The line items of one groupby group. -/
def groupRows (rows : List Row) (k : RawVal) : List Row :=
  rows.filter fun r => r.SKU == k

/-- The groupby keys: distinct SKU values, sorted (as pandas sorts group
keys) by their string form. -/
def groupKeys (rows : List Row) : List RawVal :=
  sortLe (fun a b => strLe (pyStr a) (pyStr b)) (rows.map (·.SKU)).dedup

/-- One aggregated SKU row: mode name, summed units, stock columns. -/
def aggRow (cat : List CatProd) (rows : List Row) (k : RawVal) : DemandRow :=
  let g := groupRows rows k
  let s := pyStr k
  let real := (stockMap cat s).getD 0
  let res := (g.map (·.unitsPending)).sum
  { sku := s
    name := pdModeFirst (g.map (·.ProductName))
    units6 := (g.map (·.unitsOrdered)).sum
    shipped6 := (g.map (·.unitsShipped)).sum
    stockReal := real
    reservado := res
    disponible := (real : ℚ) - res }

/-- `process_data`: select orders, flatten shipped items, normalize, drop,
group by SKU, aggregate, and attach the stock columns. -/
def process_data (cat : List CatProd) (orders : List Order) (filterSO : Bool) :
    List DemandRow :=
  let rows := keptRows orders filterSO
  (groupKeys rows).map (aggRow cat rows)

/-- One row of the final report table. -/
structure ReportRow where
  sku : String
  productName : RawVal
  units6 : ℚ
  stockReal : ℤ
  reservado : ℚ
  disponible : ℚ
  mediaLineal : ℚ
  mediaExp : ℚ
  media : ℚ
  activeMonths : ℕ
deriving DecidableEq, Repr

/-- Attach the averaged and active-months columns to one demand row.  The
weighted and active-months columns are computed from the FULL (unfiltered)
order fetch, as in the source. -/
def assembleRow (orders : List Order) (M : ℤ) (d : DemandRow) : ReportRow :=
  let lineal := round2 (d.units6 / 6)
  let expo := round2 (weightedRaw orders d.sku M)
  { sku := d.sku
    productName := d.name
    units6 := d.units6
    stockReal := d.stockReal
    reservado := d.reservado
    disponible := d.disponible
    mediaLineal := lineal
    mediaExp := expo
    media := round2 ((lineal + expo) / 2)
    activeMonths := activeMonthsFun orders d.sku M }

/-- The assembled report: per-SKU rows sorted by `units6` descending. -/
def report (cat : List CatProd) (orders : List Order) (filterSO : Bool) (M : ℤ) :
    List ReportRow :=
  sortLe (fun a b => decide (b.units6 ≤ a.units6))
    ((process_data cat orders filterSO).map (assembleRow orders M))

/-- Row of a given SKU in the report, if any. -/
def findRow (rows : List ReportRow) (sku : String) : Option ReportRow :=
  rows.find? fun r => r.sku == sku

/-- One step of sequence matching for the regex fragment made of literal
characters and the `.` wildcard (which matches anything but a newline). -/
def matchSeq : List Char → List Char → Bool
  | [], _ => true
  | _ :: _, [] => false
  | p :: ps, c :: cs =>
    (if p = '.' then decide (c ≠ '\n') else decide (p = c)) && matchSeq ps cs

/-- Python `re.search` for patterns made of literal characters and the `.`
wildcard (the regex fragment the claims exercise): try a match at every
start position. -/
def reSearch (p : List Char) : List Char → Bool
  | [] => matchSeq p []
  | c :: cs => matchSeq p (c :: cs) || reSearch p cs

/-- Whether the search term keeps a row: pandas `str.contains` (regex
`re.search`) on lowered SKU or lowered product name; null names match
nothing (`na=False`). -/
def rowMatches (search : String) (r : ReportRow) : Bool :=
  reSearch search.toList (pyLower r.sku).toList ||
    (match r.productName with
     | .pystr n => reSearch search.toList (pyLower n).toList
     | _ => false)

/-- The search/display filter: a falsy (empty) search shows every row,
otherwise rows matching the lowered search string are kept. -/
def applySearch (search : String) (rows : List ReportRow) : List ReportRow :=
  if search == "" then rows
  else rows.filter (rowMatches (pyLower search))

/-- Substring test on character lists (a prefix match at some start
position); the spec side of the search-filter claim. -/
def containsSub (p : List Char) : List Char → Bool
  | [] => p.isEmpty
  | c :: cs => p.isPrefixOf (c :: cs) || containsSub p cs

/-- Whether a row is kept by a case-insensitive SUBSTRING match on SKU or
product name, as the spec words the search filter. -/
def specRowMatches (search : String) (r : ReportRow) : Bool :=
  containsSub (pyLower search).toList (pyLower r.sku).toList ||
    (match r.productName with
     | .pystr n => containsSub (pyLower search).toList (pyLower n).toList
     | _ => false)

/-- The search filter as the spec words it: empty search keeps everything,
otherwise case-insensitive substring containment. -/
def specSearch (search : String) (rows : List ReportRow) : List ReportRow :=
  if search == "" then rows else rows.filter (specRowMatches search)

/-- Regex metacharacters of Python `re`. -/
def regexMeta : List Char :=
  ['.', '^', '$', '*', '+', '?', '\x7b', '\x7d', '[', ']', '\\', '|', '(', ')']

/-- A search string free of regex metacharacters, for which `re.search`
agrees with substring containment. -/
def noRegexMeta (s : String) : Bool := s.toList.all fun c => !regexMeta.contains c

/-- Mode with ties broken by FIRST-ENCOUNTERED order, as the spec words the
product-name resolution policy. -/
def specModeFirstEnc (strs : List String) : Option String :=
  strs.find? fun n => strs.count n == maxCount strs

/-- Active months as the spec words it: distinct months of the 6 trailing
month bins in which the SKU moved at least one unit. -/
def specActiveMonths (orders : List Order) (sku : String) (M : ℤ) : ℕ :=
  ((monthBins M).filter fun m => 1 ≤ bucketUnits orders sku m).length

/-- Months from `M - 6` on (a seven-calendar-month span ending at the
current month) in which the SKU appears on any order product line,
regardless of units. -/
def appearMonthsCard (orders : List Order) (sku : String) (M : ℤ) : ℕ :=
  (((extractSkuDates orders).filter fun p => p.1 == sku && decide (M - 6 ≤ p.2)).map
    (·.2)).toFinset.card

/-- Whether a usable SKU is recoverable from a raw line item per the spec:
either the trimmed SKU is genuine (non-empty, not a placeholder), or one
of the four patterns extracts a SKU from the name. -/
def specUsableSku (row : Row) : Bool :=
  let sku := pyStrip (pyStr row.SKU)
  if sku == "" || skuPlaceholder sku then
    (specExtractFirst (pyStrip (pyStr row.ProductName))).isSome
  else true

theorem mem_insertLe {α : Type} (le : α → α → Bool) (x a : α) (l : List α) :
    a ∈ insertLe le x l ↔ a = x ∨ a ∈ l := by
  induction l with
  | nil => simp [insertLe]
  | cons y ys ih =>
    by_cases h : le x y = true
    · simp [insertLe, h]
    · simp only [insertLe, h, if_false, Bool.false_eq_true, List.mem_cons, ih]
      tauto

theorem sortLe_cons {α : Type} (le : α → α → Bool) (y : α) (ys : List α) :
    sortLe le (y :: ys) = insertLe le y (sortLe le ys) := rfl

theorem mem_sortLe {α : Type} (le : α → α → Bool) (a : α) (l : List α) :
    a ∈ sortLe le l ↔ a ∈ l := by
  induction l with
  | nil => simp [sortLe]
  | cons y ys ih =>
    rw [sortLe_cons, mem_insertLe le y a (sortLe le ys), ih]
    simp

theorem mem_report {cat : List CatProd} {orders : List Order} {filterSO : Bool}
    {M : ℤ} {row : ReportRow} (h : row ∈ report cat orders filterSO M) :
    ∃ d ∈ process_data cat orders filterSO, row = assembleRow orders M d := by
  rw [report, mem_sortLe] at h
  obtain ⟨d, hd, hrow⟩ := List.mem_map.mp h
  exact ⟨d, hd, hrow.symm⟩

theorem mem_process_data {cat : List CatProd} {orders : List Order}
    {filterSO : Bool} {d : DemandRow} (h : d ∈ process_data cat orders filterSO) :
    ∃ k ∈ groupKeys (keptRows orders filterSO),
      d = aggRow cat (keptRows orders filterSO) k := by
  rw [process_data] at h
  obtain ⟨k, hk, hd⟩ := List.mem_map.mp h
  exact ⟨k, hk, hd.symm⟩

theorem stockMap_eq_none {cat : List CatProd} {s : String}
    (h : ∀ c ∈ cat, c.sku ≠ s) : stockMap cat s = none := by
  have hf : (cat.reverse.find? fun c => c.sku == s) = none :=
    List.find?_eq_none.mpr fun c hc => by simpa using h c (List.mem_reverse.mp hc)
  simp [stockMap, hf]

/-- C1: every report row satisfies `Stock Disponible = Stock Real − Stock
Reservado` exactly — negative values included, nothing is clamped — and a
SKU absent from the product catalog gets `Stock Real = 0`. -/
theorem c1_available_stock (cat : List CatProd) (orders : List Order)
    (filterSO : Bool) (M : ℤ) (row : ReportRow)
    (hmem : row ∈ report cat orders filterSO M) :
    row.disponible = (row.stockReal : ℚ) - row.reservado ∧
      ((∀ c ∈ cat, c.sku ≠ row.sku) → row.stockReal = 0) := by
  obtain ⟨d, hd, rfl⟩ := mem_report hmem
  obtain ⟨k, _, rfl⟩ := mem_process_data hd
  refine ⟨rfl, fun habs => ?_⟩
  have : stockMap cat (pyStr k) = none := by
    apply stockMap_eq_none
    intro c hc
    exact habs c hc
  simp [assembleRow, aggRow, this]

def c1Orders : List Order :=
  [⟨"SO1", 0, some [], some [⟨.pystr "Q", .pystr "N", 1, 0, 7⟩]⟩]

def c1Row : ReportRow := ⟨"Q", .pystr "N", 1, 0, 7, -7, 17/100, 0, 2/25, 0⟩

theorem c1_witness :
    c1Row.disponible = (c1Row.stockReal : ℚ) - c1Row.reservado ∧ c1Row.stockReal = 0 :=
  ⟨(c1_available_stock [] c1Orders true 0 c1Row (by with_unfolding_all decide)).1,
   (c1_available_stock [] c1Orders true 0 c1Row (by with_unfolding_all decide)).2
     (by simp)⟩

/-- C2 counterexample: a record whose SKU field is the EMPTY string and
whose name is "123 Blue Widget" is NOT pattern-extracted — the empty
trimmed SKU fails the source's placeholder test, so the record passes
through with SKU `""` instead of the claimed `"123"`. -/
theorem c2_counterexample :
    fix_sku_and_name ⟨.pystr "", .pystr "123 Blue Widget", 0, 0, 0⟩ =
      ⟨.pystr "", .pystr "123 Blue Widget", 0, 0, 0⟩ ∧
      RawVal.pystr "" ≠ RawVal.pystr "123" := by
  with_unfolding_all decide

theorem fixLoop_eq_findSome (row : Row) (cs : List Char) (ps : List SkuPat) :
    fixLoop row cs ps =
      match ps.findSome? (fun p => p cs) with
      | some g =>
        { row with SKU := .pystr ⟨g.1⟩, ProductName := .pystr (pyStrip ⟨g.2⟩) }
      | none => row := by
  induction ps with
  | nil => rfl
  | cons p ps ih =>
    rw [List.findSome?_cons]
    rcases hp : p cs with _ | ⟨g1, g2⟩
    · rw [show fixLoop row cs (p :: ps) = fixLoop row cs ps by simp [fixLoop, hp]]
      rw [ih]
    · simp [fixLoop, hp]

/-- C2 (amended): the placeholder set is exactly `"0"` together with
case-insensitive `"none"`/`"nan"` and does NOT include the empty string.
A row whose trimmed SKU is non-placeholder (the empty string included)
passes through with trimmed fields; a placeholder row gets ordered
first-match pattern extraction against its trimmed name; and a record
whose SKU field is MISSING (Python `str(None) = "None"`, a placeholder)
with name "123 Blue Widget" does normalize to sku "123", name
"Blue Widget". -/
theorem c2_amended_normalizer :
    (∀ row : Row, skuPlaceholder (pyStrip (pyStr row.SKU)) = false →
      fix_sku_and_name row =
        { row with SKU := .pystr (pyStrip (pyStr row.SKU)),
                   ProductName := .pystr (pyStrip (pyStr row.ProductName)) }) ∧
    (∀ row : Row, skuPlaceholder (pyStrip (pyStr row.SKU)) = true →
      fix_sku_and_name row = specExtractRow row) ∧
    skuPlaceholder "" = false ∧
    fix_sku_and_name ⟨.pynull, .pystr "123 Blue Widget", 0, 0, 0⟩ =
      ⟨.pystr "123", .pystr "Blue Widget", 0, 0, 0⟩ := by
  refine ⟨fun row h => ?_, fun row h => ?_, by decide, by with_unfolding_all decide⟩
  · simp [fix_sku_and_name, h]
  · rw [show fix_sku_and_name row =
        fixLoop row (pyStrip (pyStr row.ProductName)).toList skuPatterns by
      simp [fix_sku_and_name, h]]
    rw [fixLoop_eq_findSome, specExtractRow, specExtractFirst]
    cases hfs : skuPatterns.findSome? (fun p => p (pyStrip (pyStr row.ProductName)).toList) with
    | none => rfl
    | some g => rfl

def c2RowA : Row := ⟨.pystr "A100", .pystr "foo", 1, 2, 3⟩

def c2RowB : Row := ⟨.pystr "0", .pystr "77 Bolt", 0, 0, 0⟩

theorem c2_witness :
    fix_sku_and_name c2RowA =
      { c2RowA with SKU := .pystr (pyStrip (pyStr c2RowA.SKU)),
                    ProductName := .pystr (pyStrip (pyStr c2RowA.ProductName)) } ∧
    fix_sku_and_name c2RowB = specExtractRow c2RowB :=
  ⟨c2_amended_normalizer.1 c2RowA (by decide),
   c2_amended_normalizer.2.1 c2RowB (by decide)⟩

def c3Orders : List Order :=
  [⟨"SO1", 0, some [⟨.pystr "A", 5⟩], some [⟨.pystr "A", .pystr "Widget", 3, 0, 0⟩]⟩]

/-- C3 counterexample: the month buckets are built from the full order
stream's `units` while the "Units (Last 6 Months)" column sums the
shipped-items `total` of the filtered orders; for an order whose product
line carries 5 units but whose shipped item reports `total = 3`, the
bucket sum is 5 and the reported column 3, so the claimed equality fails. -/
theorem c3_counterexample :
    sumBuckets c3Orders "A" 0 = 5 ∧
      (findRow (report [] c3Orders true 0) "A").map (·.units6) = some 3 ∧
      (5 : ℚ) ≠ 3 := by
  with_unfolding_all decide

theorem sum_map_add (l : List ℤ) (f g : ℤ → ℚ) :
    (l.map fun m => f m + g m).sum = (l.map f).sum + (l.map g).sum := by
  induction l with
  | nil => simp
  | cons y ys ih =>
    simp only [List.map_cons, List.sum_cons, ih]
    ring

theorem sum_ite_not_mem (x : ℤ) (u : ℚ) (l : List ℤ) (h : x ∉ l) :
    (l.map fun m => if x = m then u else 0).sum = 0 := by
  induction l with
  | nil => rfl
  | cons y ys ih =>
    simp only [List.mem_cons, not_or] at h
    simp only [List.map_cons, List.sum_cons, if_neg h.1, ih h.2, add_zero, zero_add]

theorem sum_ite_nodup (x : ℤ) (u : ℚ) (l : List ℤ) (h : l.Nodup) :
    (l.map fun m => if x = m then u else 0).sum = if x ∈ l then u else 0 := by
  induction l with
  | nil => simp
  | cons y ys ih =>
    rcases List.nodup_cons.mp h with ⟨hy, hys⟩
    by_cases hx : x = y
    · subst hx
      simp only [List.map_cons, List.sum_cons, if_pos rfl, sum_ite_not_mem x u ys hy,
        add_zero]
      simp
    · simp only [List.map_cons, List.sum_cons, if_neg hx, zero_add, ih hys]
      simp [List.mem_cons, hx]

theorem sum_buckets_partition (recs : List MonthlyRec) (sku : String) (bins : List ℤ)
    (hnd : bins.Nodup) :
    (bins.map fun m =>
      ((recs.filter fun r => r.sku == sku && r.month == m).map (·.units)).sum).sum =
    ((recs.filter fun r => decide (r.month ∈ bins) && r.sku == sku).map (·.units)).sum := by
  induction recs with
  | nil => simp
  | cons r rs ih =>
    by_cases hs : r.sku = sku
    · have hlhs : (fun m : ℤ =>
          (((r :: rs).filter fun x => x.sku == sku && x.month == m).map (·.units)).sum) =
          fun m => (if r.month = m then r.units else 0) +
            ((rs.filter fun x => x.sku == sku && x.month == m).map (·.units)).sum := by
        funext m
        by_cases hm : r.month = m
        · simp [List.filter_cons, hs, hm]
        · simp [List.filter_cons, hs, hm]
      rw [hlhs, sum_map_add bins _ _, sum_ite_nodup r.month r.units bins hnd, ih]
      by_cases hb : r.month ∈ bins
      · simp [List.filter_cons, hs, hb]
      · simp [List.filter_cons, hs, hb]
    · have hlhs : (fun m : ℤ =>
          (((r :: rs).filter fun x => x.sku == sku && x.month == m).map (·.units)).sum) =
          fun m => ((rs.filter fun x => x.sku == sku && x.month == m).map (·.units)).sum := by
        funext m
        simp [List.filter_cons, hs]
      rw [hlhs, ih]
      simp [List.filter_cons, hs]

/-- C3 (amended): aggregation consistency holds WITHIN the monthly table —
for every SKU the sum of its 6 trailing month buckets equals its total
in-window units in the full order stream — but that total is not the
reported "Units (Last 6 Months)" column, which is aggregated from the
shipped-items `total` fields of the (possibly SO-filtered) orders and can
differ from it. -/
theorem c3_amended_bucket_sum (orders : List Order) (sku : String) (M : ℤ) :
    sumBuckets orders sku M = inWindowUnits orders sku M := by
  have hnd : (monthBins M).Nodup := by
    simp [monthBins]
  simpa [sumBuckets, bucketUnits, inWindowUnits] using
    sum_buckets_partition (monthlyRecords orders) sku (monthBins M) hnd

theorem weightMap_lookup_newest (M : ℤ) : (weightMap M).lookup M = some (1/4) := by
  have h5 : ((M : ℤ) == M - 5) = false := beq_eq_false_iff_ne.mpr (by omega)
  have h4 : ((M : ℤ) == M - 4) = false := beq_eq_false_iff_ne.mpr (by omega)
  have h3 : ((M : ℤ) == M - 3) = false := beq_eq_false_iff_ne.mpr (by omega)
  have h2 : ((M : ℤ) == M - 2) = false := beq_eq_false_iff_ne.mpr (by omega)
  have h1 : ((M : ℤ) == M - 1) = false := beq_eq_false_iff_ne.mpr (by omega)
  simp [weightMap, monthBins, weights, List.lookup, h5, h4, h3, h2, h1]

/-- C4: the weight assignment over the 6 trailing months, oldest to newest,
is `[0.125, 0.125, 0.125, 0.125, 0.25, 0.25]`; the weights sum to exactly
1 (so certainly within tolerance 1e-9); and adding Δ units of a SKU in
the most recent month changes that SKU's weighted sum (the value
`get_weighted_units_by_sku` computes) by exactly `Δ × 0.25`. -/
theorem c4_weights :
    weights = [1/8, 1/8, 1/8, 1/8, 1/4, 1/4] ∧
    weights.sum = 1 ∧
    (∀ M : ℤ, weightMap M =
      [(M - 5, 1/8), (M - 4, 1/8), (M - 3, 1/8), (M - 2, 1/8), (M - 1, 1/4), (M, 1/4)]) ∧
    (∀ (orders : List Order) (s : String) (M : ℤ) (Δ : ℚ),
      weightedRaw (orders ++ [⟨"SOx", M, some [⟨.pystr s, Δ⟩], none⟩]) (pyStrip s) M =
        weightedRaw orders (pyStrip s) M + Δ * (1/4)) := by
  refine ⟨rfl, by norm_num [weights], fun M => rfl, fun orders s M Δ => ?_⟩
  have hmr : monthlyRecords (orders ++ [⟨"SOx", M, some [⟨.pystr s, Δ⟩], none⟩]) =
      monthlyRecords orders ++ [⟨pyStrip s, M, Δ⟩] := by
    simp [monthlyRecords, prodSku]
  have hM : decide ((M : ℤ) ∈ monthBins M) = true := by simp [monthBins]
  simp only [weightedRaw, hmr, List.filter_append, List.map_append, List.sum_append]
  simp [hM, List.filter_cons, weightMap_lookup_newest M]

def c5Orders : List Order :=
  [⟨"SO1", 0, some [⟨.pystr "S", 12⟩], some [⟨.pystr "S", .pystr "Gadget", 12, 0, 0⟩]⟩]

def c5Row : ReportRow := ⟨"S", .pystr "Gadget", 12, 0, 0, 0, 2, 3, 5/2, 1⟩

/-- C5: in every report row, "Media Lineal (Mes)" equals `units6 / 6`
rounded to two decimals and "Media" equals the mean of "Media Lineal" and
"Media Exponencial" rounded to two decimals; and the scenario of a SKU
with 12 units, all in the current month, reports avg_linear 2.0,
avg_weighted 3.0, avg_blended 2.5 and 1 active month. -/
theorem c5_averages :
    (∀ (cat : List CatProd) (orders : List Order) (filterSO : Bool) (M : ℤ)
      (row : ReportRow), row ∈ report cat orders filterSO M →
      row.mediaLineal = round2 (row.units6 / 6) ∧
        row.media = round2 ((row.mediaLineal + row.mediaExp) / 2)) ∧
    findRow (report [] c5Orders true 0) "S" = some c5Row := by
  constructor
  · intro cat orders filterSO M row hmem
    obtain ⟨d, _, rfl⟩ := mem_report hmem
    exact ⟨rfl, rfl⟩
  · with_unfolding_all decide

theorem c5_witness :
    c5Row.mediaLineal = round2 (c5Row.units6 / 6) ∧
      c5Row.media = round2 ((c5Row.mediaLineal + c5Row.mediaExp) / 2) :=
  c5_averages.1 [] c5Orders true 0 c5Row (by with_unfolding_all decide)

def c6OrdersA : List Order :=
  [⟨"SO1", 0, some [⟨.pystr "Z", 0⟩], some [⟨.pystr "Z", .pystr "Widget", 1, 0, 0⟩]⟩]

def c6OrdersB : List Order :=
  [⟨"SO1", -6, some [⟨.pystr "W", 1⟩], some [⟨.pystr "W", .pystr "Widget", 1, 0, 0⟩]⟩]

/-- C6 counterexample: (a) a SKU whose only order line carries 0 units
(current month) is reported with 1 active month even though no month has
at least one unit of movement; (b) a SKU whose only movement lies in the
seventh month back (month `now − 6`, outside the six trailing month
bins) is also reported with 1 active month.  In both cases the claimed
count is 0. -/
theorem c6_counterexample :
    ((findRow (report [] c6OrdersA true 0) "Z").map (·.activeMonths) = some 1 ∧
      specActiveMonths c6OrdersA "Z" 0 = 0) ∧
    ((findRow (report [] c6OrdersB true 0) "W").map (·.activeMonths) = some 1 ∧
      specActiveMonths c6OrdersB "W" 0 = 0) ∧
    (1 : ℕ) ≠ 0 := by
  with_unfolding_all decide

theorem activeMonthsFun_eq (orders : List Order) (sku : String) (M : ℤ) :
    activeMonthsFun orders sku M = min 6 (appearMonthsCard orders sku M) := by
  simp only [activeMonthsFun, appearMonthsCard, List.card_toFinset, List.filter_filter,
    Nat.min_comm]

/-- C6 (amended): the reported Active Months of a SKU equals
`min 6 (number of distinct calendar months from (now − 6 months) onward —
a seven-month span — in which the SKU appears on any order product line,
zero-unit lines included)`, and it always lies in `[0, 6]`. -/
theorem c6_amended_active_months (cat : List CatProd) (orders : List Order)
    (filterSO : Bool) (M : ℤ) (row : ReportRow)
    (hmem : row ∈ report cat orders filterSO M) :
    row.activeMonths = min 6 (appearMonthsCard orders row.sku M) ∧
      row.activeMonths ≤ 6 := by
  obtain ⟨d, _, rfl⟩ := mem_report hmem
  refine ⟨activeMonthsFun_eq orders d.sku M, ?_⟩
  show activeMonthsFun orders d.sku M ≤ 6
  simp only [activeMonthsFun]
  exact Nat.min_le_right _ 6

def c6RowB : ReportRow := ⟨"W", .pystr "Widget", 1, 0, 0, 0, 17/100, 0, 2/25, 1⟩

theorem c6_witness :
    c6RowB.activeMonths = min 6 (appearMonthsCard c6OrdersB c6RowB.sku 0) ∧
      c6RowB.activeMonths ≤ 6 :=
  c6_amended_active_months [] c6OrdersB true 0 c6RowB (by with_unfolding_all decide)

def c7Orders : List Order :=
  [⟨"SO1", 0, some [],
    some [⟨.pystr "7", .pystr "b", 1, 0, 0⟩, ⟨.pystr "7", .pystr "a", 1, 0, 0⟩]⟩]

/-- C7 counterexample: a SKU observed with names "b" then "a" (each once, a
tie) would resolve to "b" under first-encountered tie-breaking, but the
report shows "a": pandas returns the tied modes in sorted order and the
first sorted value is taken. -/
theorem c7_counterexample :
    (findRow (report [] c7Orders true 0) "7").map (·.productName) =
      some (.pystr "a") ∧
      specModeFirstEnc ["b", "a"] = some "b" ∧
      RawVal.pystr "a" ≠ RawVal.pystr "b" := by
  with_unfolding_all decide

theorem clLe_refl : ∀ a : List Char, clLe a a = true
  | [] => rfl
  | x :: xs => by simp [clLe, clLe_refl xs]

theorem clLe_total : ∀ a b : List Char, clLe a b = true ∨ clLe b a = true
  | [], _ => Or.inl rfl
  | _ :: _, [] => Or.inr rfl
  | x :: xs, y :: ys => by
    by_cases hxy : x = y
    · subst hxy
      rcases clLe_total xs ys with h | h
      · left; simpa [clLe] using h
      · right; simpa [clLe] using h
    · rcases lt_trichotomy x y with h | h | h
      · left; simp [clLe, hxy, h]
      · exact absurd h hxy
      · right; simp [clLe, Ne.symm hxy, h]

theorem clLe_trans : ∀ a b c : List Char,
    clLe a b = true → clLe b c = true → clLe a c = true
  | [], _, _, _, _ => rfl
  | _ :: _, [], _, hab, _ => by simp [clLe] at hab
  | _ :: _, _ :: _, [], _, hbc => by simp [clLe] at hbc
  | x :: xs, y :: ys, z :: zs, hab, hbc => by
    by_cases hxy : x = y
    · subst hxy
      by_cases hyz : x = z
      · subst hyz
        simp only [clLe, if_pos rfl] at hab hbc ⊢
        exact clLe_trans xs ys zs hab hbc
      · simp only [clLe, if_pos rfl] at hab
        simp only [clLe, if_neg hyz] at hbc ⊢
        exact hbc
    · simp only [clLe, if_neg hxy] at hab
      have hxy' : x < y := of_decide_eq_true hab
      by_cases hyz : y = z
      · subst hyz
        simp only [clLe, if_neg hxy]
        exact decide_eq_true hxy'
      · simp only [clLe, if_neg hyz] at hbc
        have hyz' : y < z := of_decide_eq_true hbc
        have hxz' : x < z := lt_trans hxy' hyz'
        simp only [clLe, if_neg (ne_of_lt hxz')]
        exact decide_eq_true hxz'

theorem strLe_refl (a : String) : strLe a a = true := clLe_refl a.toList

theorem strLe_total (a b : String) : strLe a b = true ∨ strLe b a = true :=
  clLe_total a.toList b.toList

theorem strLe_trans {a b c : String} (h1 : strLe a b = true) (h2 : strLe b c = true) :
    strLe a c = true :=
  clLe_trans a.toList b.toList c.toList h1 h2

theorem pairwise_insertLe {α : Type} (le : α → α → Bool)
    (htot : ∀ a b, le a b = true ∨ le b a = true)
    (htrans : ∀ {a b c}, le a b = true → le b c = true → le a c = true)
    (x : α) (l : List α) (h : l.Pairwise fun a b => le a b = true) :
    (insertLe le x l).Pairwise fun a b => le a b = true := by
  induction l with
  | nil => simp [insertLe]
  | cons y ys ih =>
    rcases List.pairwise_cons.mp h with ⟨hy, hys⟩
    by_cases hxy : le x y = true
    · simp only [insertLe, hxy, if_true]
      refine List.pairwise_cons.mpr ⟨?_, h⟩
      intro b hb
      rcases List.mem_cons.mp hb with rfl | hb
      · exact hxy
      · exact htrans hxy (hy b hb)
    · have hxy' : le x y = false := by
        cases hv : le x y
        · rfl
        · exact absurd hv hxy
      simp only [insertLe, hxy', Bool.false_eq_true, if_false]
      refine List.pairwise_cons.mpr ⟨?_, ih hys⟩
      intro b hb
      rcases (mem_insertLe le x b ys).mp hb with hbx | hb
      · rcases htot x y with h' | h'
        · exact absurd h' hxy
        · rw [hbx]; exact h'
      · exact hy b hb

theorem pairwise_sortLe {α : Type} (le : α → α → Bool)
    (htot : ∀ a b, le a b = true ∨ le b a = true)
    (htrans : ∀ {a b c}, le a b = true → le b c = true → le a c = true) :
    ∀ l : List α, (sortLe le l).Pairwise fun a b => le a b = true
  | [] => List.Pairwise.nil
  | y :: ys => by
    rw [sortLe_cons]
    exact pairwise_insertLe le htot htrans y _ (pairwise_sortLe le htot htrans ys)

theorem le_foldr_max (l : List ℕ) : ∀ x ∈ l, x ≤ l.foldr max 0 := by
  induction l with
  | nil => intro x hx; cases hx
  | cons a t ih =>
    intro x hx
    rcases List.mem_cons.mp hx with rfl | hx
    · exact le_max_left _ (t.foldr max 0)
    · exact le_trans (ih x hx) (le_max_right a (t.foldr max 0))

theorem foldr_max_mem : ∀ l : List ℕ, l ≠ [] → l.foldr max 0 ∈ l
  | [], h => absurd rfl h
  | [a], _ => by simp
  | a :: b :: t, _ => by
    have hfold : (a :: b :: t).foldr max 0 = max a ((b :: t).foldr max 0) := rfl
    rcases Nat.le_total a ((b :: t).foldr max 0) with h | h
    · rw [hfold, Nat.max_eq_right h]
      exact List.mem_cons_of_mem a (foldr_max_mem (b :: t) (by simp))
    · rw [hfold, Nat.max_eq_left h]
      exact List.mem_cons_self a (b :: t)

/-- C7 (amended): the reported product name of a SKU is a mode of the
group's observed names, but ties are broken by the LEXICOGRAPHICALLY
SMALLEST tied name (pandas `mode()` sorts the tied modes and `iloc[0]`
takes the first), not by first-encountered order; and every report row's
name is produced that way from its group's name list. -/
theorem c7_amended_mode :
    (∀ strs : List String, strs ≠ [] →
      ∃ m, (pdModeList strs).head? = some m ∧ m ∈ strs ∧
        (∀ y ∈ strs, strs.count y ≤ strs.count m) ∧
        (∀ y ∈ strs, strs.count y = strs.count m → strLe m y = true)) ∧
    (∀ (cat : List CatProd) (orders : List Order) (filterSO : Bool) (M : ℤ)
      (row : ReportRow), row ∈ report cat orders filterSO M →
      ∃ k ∈ groupKeys (keptRows orders filterSO),
        row.sku = pyStr k ∧
          row.productName =
            pdModeFirst ((groupRows (keptRows orders filterSO) k).map (·.ProductName))) := by
  constructor
  · intro strs hne
    have hdne : strs.dedup ≠ [] := by
      intro h
      exact hne ((List.dedup_eq_nil strs).mp h)
    have hmapne : (strs.dedup.map fun v => strs.count v) ≠ [] := by
      simpa using hdne
    obtain ⟨v, hvd, hvc⟩ := List.mem_map.mp (foldr_max_mem _ hmapne)
    have hvf : v ∈ strs.dedup.filter fun w => strs.count w == maxCount strs :=
      List.mem_filter.mpr ⟨hvd, by simp [maxCount, hvc]⟩
    have hsne : pdModeList strs ≠ [] := by
      rw [pdModeList]
      intro h
      have hvmem := (mem_sortLe strLe v _).mpr hvf
      rw [h] at hvmem
      cases hvmem
    cases hh : pdModeList strs with
    | nil => exact absurd hh hsne
    | cons m t =>
      have hmmem : m ∈ pdModeList strs := by rw [hh]; exact List.mem_cons_self m t
      have hmf := (mem_sortLe strLe m _).mp (by rw [pdModeList] at hmmem; exact hmmem)
      have hmd : m ∈ strs.dedup := List.mem_of_mem_filter hmf
      have hmc : strs.count m = maxCount strs := by
        have := (List.mem_filter.mp hmf).2
        simpa using this
      refine ⟨m, rfl, List.mem_dedup.mp hmd, ?_, ?_⟩
      · intro y hy
        rw [hmc, maxCount]
        exact le_foldr_max _ _ (List.mem_map.mpr ⟨y, List.mem_dedup.mpr hy, rfl⟩)
      · intro y hy hcy
        have hyf : y ∈ strs.dedup.filter fun w => strs.count w == maxCount strs :=
          List.mem_filter.mpr ⟨List.mem_dedup.mpr hy, by simp [hcy, hmc]⟩
        have hys : y ∈ pdModeList strs := by
          rw [pdModeList]
          exact (mem_sortLe strLe y _).mpr hyf
        have hpw : (pdModeList strs).Pairwise fun a b => strLe a b = true := by
          rw [pdModeList]
          exact pairwise_sortLe strLe strLe_total (fun h1 h2 => strLe_trans h1 h2) _
        rw [hh] at hys hpw
        rcases List.mem_cons.mp hys with rfl | hyt
        · exact strLe_refl y
        · exact (List.pairwise_cons.mp hpw).1 y hyt
  · intro cat orders filterSO M row hmem
    obtain ⟨d, hd, rfl⟩ := mem_report hmem
    obtain ⟨k, hk, rfl⟩ := mem_process_data hd
    exact ⟨k, hk, rfl, rfl⟩

def c7Row : ReportRow := ⟨"7", .pystr "a", 2, 0, 0, 0, 33/100, 0, 4/25, 0⟩

theorem c7_witness :
    (∃ m, (pdModeList ["b", "a"]).head? = some m ∧ m ∈ ["b", "a"] ∧
      (∀ y ∈ ["b", "a"], List.count y ["b", "a"] ≤ List.count m ["b", "a"]) ∧
      (∀ y ∈ ["b", "a"], List.count y ["b", "a"] = List.count m ["b", "a"] →
        strLe m y = true)) ∧
    (∃ k ∈ groupKeys (keptRows c7Orders true),
      c7Row.sku = pyStr k ∧
        c7Row.productName =
          pdModeFirst ((groupRows (keptRows c7Orders true) k).map (·.ProductName))) :=
  ⟨c7_amended_mode.1 ["b", "a"] (by decide),
   c7_amended_mode.2 [] c7Orders true 0 c7Row (by with_unfolding_all decide)⟩

def c8Row : ReportRow := ⟨"A1", .pystr "Widget", 0, 0, 0, 0, 0, 0, 0, 0⟩

/-- C8 counterexample: the search string is used as a REGEX pattern
(pandas `str.contains` default), not as a literal substring: searching
"." keeps the row ⟨"A1", "Widget"⟩, because the wildcard matches any
character, even though "." occurs in neither the SKU nor the name — the
claim demands zero rows there. -/
theorem c8_counterexample :
    applySearch "." [c8Row] = [c8Row] ∧ specSearch "." [c8Row] = [] ∧
      ([c8Row] : List ReportRow) ≠ [] := by
  with_unfolding_all decide

theorem matchSeq_no_dot (p : List Char) (h : '.' ∉ p) :
    ∀ cs, matchSeq p cs = p.isPrefixOf cs := by
  induction p with
  | nil => intro cs; cases cs <;> rfl
  | cons a ps ih =>
    intro cs
    simp only [List.mem_cons, not_or] at h
    have hdot : ¬(a = '.') := fun hh => h.1 hh.symm
    cases cs with
    | nil => rfl
    | cons c cs =>
      by_cases hac : a = c
      · subst hac
        simp [matchSeq, List.isPrefixOf, hdot, ih h.2]
      · simp [matchSeq, List.isPrefixOf, hdot, hac]

theorem reSearch_no_dot (p : List Char) (h : '.' ∉ p) :
    ∀ cs, reSearch p cs = containsSub p cs := by
  intro cs
  induction cs with
  | nil =>
    rw [reSearch, containsSub, matchSeq_no_dot p h]
    cases p <;> rfl
  | cons c cs ih =>
    rw [reSearch, containsSub, matchSeq_no_dot p h, ih]

theorem noMeta_no_dot {s : String} (h : noRegexMeta s = true) : '.' ∉ s.toList := by
  intro hmem
  rw [noRegexMeta] at h
  have h2 := List.all_eq_true.mp h '.' hmem
  rw [show regexMeta.contains '.' = true by decide] at h2
  cases h2

/-- C8 (amended): filtering with the empty search string returns the full
row set unchanged; a non-empty search string, however, is interpreted as
a REGEX (pandas `str.contains` default), which coincides with
case-insensitive substring containment exactly when the lowercased
search string has no regex metacharacter.  For such metacharacter-free
strings the filter keeps precisely the rows with a case-insensitive
substring hit on SKU or product name — so such a string present in no
SKU or name yields zero rows. -/
theorem c8_amended_search :
    (∀ rows : List ReportRow, applySearch "" rows = rows) ∧
    (∀ (search : String) (rows : List ReportRow),
      noRegexMeta (pyLower search) = true →
        applySearch search rows = specSearch search rows) := by
  constructor
  · intro rows; rfl
  · intro search rows hmeta
    by_cases hempty : (search == "") = true
    · rw [applySearch, specSearch, if_pos hempty, if_pos hempty]
    · rw [applySearch, specSearch, if_neg hempty, if_neg hempty]
      apply List.filter_congr
      intro r _
      have hdot : '.' ∉ (pyLower search).toList := noMeta_no_dot hmeta
      rw [rowMatches, specRowMatches]
      cases r.productName <;> simp only [reSearch_no_dot _ hdot]

theorem c8_witness :
    applySearch "" [c8Row] = [c8Row] ∧
      applySearch "wid" [c8Row] = specSearch "wid" [c8Row] :=
  ⟨c8_amended_search.1 [c8Row], c8_amended_search.2 "wid" [c8Row] (by decide)⟩

def c9Orders : List Order :=
  [⟨"SO1", 0, some [], some [⟨.pystr "NONE", .pystr "Widget", 2, 0, 0⟩]⟩]

def c9Item : Row := ⟨.pystr "NONE", .pystr "Widget", 2, 0, 0⟩

/-- C9 counterexample: the line item with SKU "NONE" and name "Widget" has
no recoverable SKU (its trimmed SKU is a placeholder and no pattern
matches the name), yet it is NOT dropped: on normalization failure the
raw "NONE" stays in the SKU field, the drop filter removes only the
exact values `""`, `"0"`, `None` and `NaN`, and the record aggregates
into its own "NONE" report row carrying its full 2 units. -/
theorem c9_counterexample :
    specUsableSku c9Item = false ∧
      (findRow (report [] c9Orders true 0) "NONE").map (·.units6) = some 2 := by
  with_unfolding_all decide

/-- C9 (amended): a line item whose post-normalization SKU field is
exactly `""`, `"0"`, `None` or `NaN` is dropped before aggregation and
contributes to no aggregated row, so no report row carries the SKU `""`
or `"0"`; but items whose unrecoverable placeholder SKU survives
normalization under another spelling (e.g. `"NONE"`, `"NaN"`, `" 0 "`)
are kept and aggregate under that spelling. -/
theorem c9_amended_drop :
    (∀ (orders : List Order) (filterSO : Bool) (r : Row),
      r ∈ keptRows orders filterSO → inDropSet r.SKU = false) ∧
    (∀ (cat : List CatProd) (orders : List Order) (filterSO : Bool) (M : ℤ)
      (row : ReportRow), row ∈ report cat orders filterSO M →
      row.sku ≠ "" ∧ row.sku ≠ "0") := by
  have hkept : ∀ (orders : List Order) (filterSO : Bool) (r : Row),
      r ∈ keptRows orders filterSO → inDropSet r.SKU = false := by
    intro orders filterSO r hr
    rw [keptRows] at hr
    have h2 := (List.mem_filter.mp (List.mem_of_mem_filter hr)).2
    simpa using h2
  refine ⟨hkept, ?_⟩
  intro cat orders filterSO M row hmem
  obtain ⟨d, hd, rfl⟩ := mem_report hmem
  obtain ⟨k, hk, rfl⟩ := mem_process_data hd
  rw [groupKeys, mem_sortLe] at hk
  obtain ⟨r, hr, hrk⟩ := List.mem_map.mp (List.mem_dedup.mp hk)
  have hdrop : inDropSet k = false := hrk ▸ hkept orders filterSO r hr
  show pyStr k ≠ "" ∧ pyStr k ≠ "0"
  cases k with
  | pynull => simp [inDropSet] at hdrop
  | pynan => simp [inDropSet] at hdrop
  | pystr s =>
    constructor
    · intro h
      rw [show pyStr (RawVal.pystr s) = s from rfl] at h
      subst h
      simp [inDropSet] at hdrop
    · intro h
      rw [show pyStr (RawVal.pystr s) = s from rfl] at h
      subst h
      simp [inDropSet] at hdrop

def c9RowR : ReportRow := ⟨"NONE", .pystr "Widget", 2, 0, 0, 0, 33/100, 0, 4/25, 0⟩

theorem c9_witness :
    inDropSet c9Item.SKU = false ∧ (c9RowR.sku ≠ "" ∧ c9RowR.sku ≠ "0") :=
  ⟨c9_amended_drop.1 c9Orders true c9Item (by with_unfolding_all decide),
   c9_amended_drop.2 [] c9Orders true 0 c9RowR (by with_unfolding_all decide)⟩

theorem report_row_full_columns {cat : List CatProd} {orders : List Order}
    {filterSO : Bool} {M : ℤ} {row : ReportRow}
    (h : row ∈ report cat orders filterSO M) :
    row.mediaExp = round2 (weightedRaw orders row.sku M) ∧
      row.activeMonths = activeMonthsFun orders row.sku M := by
  obtain ⟨d, _, rfl⟩ := mem_report h
  exact ⟨rfl, rfl⟩

/-- C10: toggling the "SO"-prefix order filter cannot change a SKU's
"Media Exponencial (Mes)" or "Active Months" values: both are computed
from the full unfiltered sales-order fetch, while the filter only feeds
the shipped-items aggregation (units, reserved and derived stock
columns).  Whenever a SKU has a report row under both filter settings,
those two values agree exactly. -/
theorem c10_filter_invariance (cat : List CatProd) (orders : List Order) (M : ℤ)
    (sku : String) (r1 r2 : ReportRow)
    (h1 : findRow (report cat orders true M) sku = some r1)
    (h2 : findRow (report cat orders false M) sku = some r2) :
    r1.mediaExp = r2.mediaExp ∧ r1.activeMonths = r2.activeMonths := by
  have hm1 := List.mem_of_find?_eq_some h1
  have hm2 := List.mem_of_find?_eq_some h2
  have hs1 : r1.sku = sku := by simpa using List.find?_some h1
  have hs2 : r2.sku = sku := by simpa using List.find?_some h2
  obtain ⟨he1, ha1⟩ := report_row_full_columns hm1
  obtain ⟨he2, ha2⟩ := report_row_full_columns hm2
  rw [he1, he2, ha1, ha2, hs1, hs2]
  exact ⟨rfl, rfl⟩

def c10Orders : List Order :=
  [⟨"SO1", 0, some [⟨.pystr "S", 4⟩], some [⟨.pystr "S", .pystr "G", 4, 0, 0⟩]⟩,
   ⟨"W2", 0, some [⟨.pystr "S", 2⟩], some [⟨.pystr "S", .pystr "G", 2, 0, 0⟩]⟩]

def c10Row1 : ReportRow := ⟨"S", .pystr "G", 4, 0, 0, 0, 67/100, 3/2, 27/25, 1⟩

def c10Row2 : ReportRow := ⟨"S", .pystr "G", 6, 0, 0, 0, 1, 3/2, 5/4, 1⟩

theorem c10_witness :
    c10Row1.mediaExp = c10Row2.mediaExp ∧ c10Row1.activeMonths = c10Row2.activeMonths :=
  c10_filter_invariance [] c10Orders 0 "S" c10Row1 c10Row2
    (by with_unfolding_all decide) (by with_unfolding_all decide)
